import Mathlib

/-!
Verification development for the `cx-data-mart` county-FSA download pipeline
(`src/cx_data_mart/processing/county_fsa/download_county_fsa_acreage.py` and
`unzip_files_step2.py`).

The Python code is shallowly embedded: strings are Lean `String`s manipulated
through their character lists, `re` searches are modelled as explicit leftmost
matchers for the concrete patterns appearing in the source, network calls are
an oracle (`Net`) returning `Except Unit Response` where `.error` stands for a
raised transport exception, and `datetime` values are `PyDate` records.
-/

namespace CxDataMart

/-! ### Character and string primitives (CPython semantics, ASCII range) -/

/-- Python `\s` / `str.split()` whitespace set (ASCII part). -/
def pyIsSpace (c : Char) : Bool :=
  c = ' ' || c = '\t' || c = '\n' || c = '\r' || c = '\x0b' || c = '\x0c'

/-- Python `str.lower` on one ASCII character. -/
def charLower (c : Char) : Char :=
  if 'A' ≤ c ∧ c ≤ 'Z' then Char.ofNat (c.toNat + 32) else c

/-- Python `str.lower`. -/
def pyLower (s : String) : String :=
  String.mk (s.toList.map charLower)

/-- Python `str.strip()` (whitespace on both ends). -/
def pyStrip (s : String) : String :=
  String.mk (((s.toList.dropWhile pyIsSpace).reverse.dropWhile pyIsSpace).reverse)

/-- Python `str.split()` : split on whitespace runs, dropping empty tokens.
`splitWSAux l cur` accumulates the current (reversed) token in `cur`. -/
def splitWSAux : List Char → List Char → List (List Char)
  | [], cur => if cur.isEmpty then [] else [cur.reverse]
  | c :: rest, cur =>
    if pyIsSpace c then
      if cur.isEmpty then splitWSAux rest [] else cur.reverse :: splitWSAux rest []
    else
      splitWSAux rest (c :: cur)

def pySplit (s : String) : List String :=
  (splitWSAux s.toList []).map String.mk

/-- Substring test: Python `needle in hay` for strings. -/
def isInfixList (needle : List Char) : List Char → Bool
  | [] => needle.isEmpty
  | c :: rest => needle.isPrefixOf (c :: rest) || isInfixList needle rest

def containsSubB (needle hay : String) : Bool :=
  isInfixList needle.toList hay.toList

/-- Python `str.endswith`. -/
def endsWithB (s suf : String) : Bool :=
  List.isSuffixOf suf.toList s.toList

/-- Python `str.startswith`. -/
def startsWithB (s pre : String) : Bool :=
  List.isPrefixOf pre.toList s.toList

/-- Python `str.replace(old, new)` specialised to a two-character `old`,
scanning left to right over non-overlapping occurrences (CPython semantics). -/
def replacePair (c1 c2 : Char) (r : List Char) : List Char → List Char
  | [] => []
  | [x] => [x]
  | x :: y :: rest =>
    if x = c1 ∧ y = c2 then r ++ replacePair c1 c2 r rest
    else x :: replacePair c1 c2 r (y :: rest)

/-- CPython `\w` word character (ASCII range, as in the page text handled). -/
def isWordChar (c : Char) : Bool :=
  c.isAlphanum || c = '_'

/-- Word boundary `\b` immediately before a word character, given the previous
character (`none` at the start of the string). -/
def boundaryBefore : Option Char → Bool
  | none => true
  | some p => !isWordChar p

/-! ### Leftmost regex search driver

`regexSearch matchAt prev l` mirrors `re.search`: it attempts the pattern at
every position from left to right; `matchAt` receives the character preceding
the position (for `\b`) and the remaining input. -/

def regexSearch (matchAt : Option Char → List Char → Option α) :
    Option Char → List Char → Option α
  | prev, [] => matchAt prev []
  | prev, c :: rest =>
    match matchAt prev (c :: rest) with
    | some r => some r
    | none => regexSearch matchAt (some c) rest

/-! ### Year-token search: `\b(20\d{2})\b` -/

/-- Attempt `\b(20\d{2})\b` at one position. -/
def yearTokenAt (prev : Option Char) (l : List Char) : Option String :=
  match l with
  | '2' :: '0' :: c :: d :: rest =>
    if c.isDigit && d.isDigit && boundaryBefore prev
        && (match rest with | [] => true | e :: _ => !isWordChar e) then
      some (String.mk ['2', '0', c, d])
    else none
  | _ => none

/-- `re.search(r"\b(20\d{2})\b", s)` returning group 1. -/
def findYearToken (s : String) : Option String :=
  regexSearch yearTokenAt none s.toList

/-- Source `extract_year_hint`: `re.search(r"\b(20\d{2})\b", text or "")`. -/
def extract_year_hint (text : String) : Option String :=
  findYearToken text

/-! ### Date-group matcher: `[A-Za-z]+\.?\s+\d{1,2},\s+\d{4}`

Returns the captured characters. The quantifier choices are deterministic for
this pattern except `\d{1,2}`, where the regex engine prefers two digits and
backtracks to one; both alternatives require the following character to be a
comma, which makes the implementation below equivalent. -/

def dateDigitsSplit : List Char → Option (List Char × List Char)
  | a :: b :: ',' :: rest =>
    if a.isDigit && b.isDigit then some ([a, b], ',' :: rest)
    else if a.isDigit && b = ',' then some ([a], ',' :: rest)
    else none
  | a :: ',' :: rest =>
    if a.isDigit then some ([a], ',' :: rest) else none
  | _ => none

def dateGroupAt (l : List Char) : Option (List Char) :=
  let letters := l.takeWhile Char.isAlpha
  if letters.isEmpty then none
  else
    let r1 := l.drop letters.length
    let dotPart := match r1 with
      | '.' :: _ => ['.']
      | _ => []
    let r2 := r1.drop dotPart.length
    let sp1 := r2.takeWhile pyIsSpace
    if sp1.isEmpty then none
    else
      let r3 := r2.drop sp1.length
      match dateDigitsSplit r3 with
      | none => none
      | some (digits, withComma) =>
        match withComma with
        | ',' :: r4 =>
          let sp2 := r4.takeWhile pyIsSpace
          if sp2.isEmpty then none
          else
            match r4.drop sp2.length with
            | y1 :: y2 :: y3 :: y4 :: _ =>
              if y1.isDigit && y2.isDigit && y3.isDigit && y4.isDigit then
                some (letters ++ dotPart ++ sp1 ++ digits ++ [','] ++ sp2 ++ [y1, y2, y3, y4])
              else none
            | _ => none
        | _ => none

/-- Attempt `\bas of\s+(GROUP)` at one position (`re.IGNORECASE`; note the
literal single space between `as` and `of` in the source pattern). -/
def asOfAt (prev : Option Char) (l : List Char) : Option (List Char) :=
  match l with
  | a :: s :: sp :: o :: f :: rest =>
    if boundaryBefore prev && charLower a = 'a' && charLower s = 's' && sp = ' '
        && charLower o = 'o' && charLower f = 'f' then
      match rest with
      | w :: _ =>
        if pyIsSpace w then dateGroupAt (rest.dropWhile pyIsSpace) else none
      | [] => none
    else none
  | _ => none

/-- `AS_OF_PAT.search`, returning the captured date text. -/
def searchAsOf (l : List Char) : Option (List Char) :=
  regexSearch asOfAt none l

/-- `DATE_PAT.search`, returning the captured date text. -/
def searchDateGroup (l : List Char) : Option (List Char) :=
  regexSearch (fun _ rest => dateGroupAt rest) none l

/-! ### Month normalization and `datetime.strptime(date_str, "%B %d, %Y")` -/

/-- Source `MONTH_FIX` table (insertion order preserved; keys are distinct). -/
def MONTH_FIX : List (String × String) :=
  [("Sept", "September"), ("Sep.", "September"), ("Sep", "September"),
   ("Aug.", "August"), ("Oct.", "October"), ("Nov.", "November"),
   ("Dec.", "December"), ("Jan.", "January"), ("Feb.", "February"),
   ("Mar.", "March"), ("Apr.", "April"), ("Jun.", "June"), ("Jul.", "July")]

/-- `MONTH_FIX.get(first, first)`. -/
def monthFixGet (t : String) : String :=
  (List.lookup t MONTH_FIX).getD t

/-- Source `normalize_months`: fix the first whitespace token, re-join with
single spaces. -/
def normalize_months (date_text : String) : String :=
  match pySplit date_text with
  | [] => date_text
  | t0 :: rest => String.intercalate " " (monthFixGet t0 :: rest)

/-- A `datetime.datetime` restricted to its date fields (times here are 0). -/
structure PyDate where
  year : Nat
  month : Nat
  day : Nat
deriving DecidableEq, Repr

def isLeap (y : Nat) : Bool :=
  y % 4 = 0 && (y % 100 ≠ 0 || y % 400 = 0)

def daysInMonth (y m : Nat) : Nat :=
  if m = 2 then (if isLeap y then 29 else 28)
  else if m = 4 ∨ m = 6 ∨ m = 9 ∨ m = 11 then 30
  else 31

/-- The `datetime.datetime(...)` constructor's range checks (raising becomes
`none`). -/
def mkDatetime (y m d : Nat) : Option PyDate :=
  if 1 ≤ y ∧ y ≤ 9999 ∧ 1 ≤ m ∧ m ≤ 12 ∧ 1 ≤ d ∧ d ≤ daysInMonth y m then
    some ⟨y, m, d⟩
  else none

/-- English month names with their numbers, as matched (case-insensitively) by
`%B`. No name is a prefix of another, so trying them in any order is
deterministic. -/
def monthNames : List (String × Nat) :=
  [("january", 1), ("february", 2), ("march", 3), ("april", 4), ("may", 5),
   ("june", 6), ("july", 7), ("august", 8), ("september", 9), ("october", 10),
   ("november", 11), ("december", 12)]

def matchMonth (l : List Char) : Option (Nat × List Char) :=
  monthNames.findSome? (fun p =>
    let nl := p.1.toList
    if (l.take nl.length).map charLower = nl then some (p.2, l.drop nl.length)
    else none)

/-- Require at least one whitespace character and consume the whole run
(strptime turns literal whitespace in the format into `\s+`). -/
def wsRun : List Char → Option (List Char)
  | [] => none
  | c :: rest => if pyIsSpace c then some (rest.dropWhile pyIsSpace) else none

/-- Alternatives of strptime's `%d` pattern `3[01]|[12]\d|0[1-9]|[1-9]`, in
regex alternation order, each with the remaining input. -/
def dayAlts : List Char → List (Nat × List Char)
  | a :: b :: rest =>
    (if a = '3' ∧ (b = '0' ∨ b = '1') then [(30 + (b.toNat - 48), rest)] else []) ++
    (if (a = '1' ∨ a = '2') ∧ b.isDigit then
       [((a.toNat - 48) * 10 + (b.toNat - 48), rest)] else []) ++
    (if a = '0' ∧ b.isDigit ∧ b ≠ '0' then [(b.toNat - 48, rest)] else []) ++
    (if a.isDigit ∧ a ≠ '0' then [(a.toNat - 48, b :: rest)] else [])
  | [a] => if a.isDigit ∧ a ≠ '0' then [(a.toNat - 48, [])] else []
  | [] => []

/-- After the day: `,` `\s+` `\d{4}` and end of input (strptime rejects
unconverted trailing data). Returns the year. -/
def afterDay : List Char → Option Nat
  | ',' :: rest =>
    match wsRun rest with
    | none => none
    | some r2 =>
      match r2 with
      | [y1, y2, y3, y4] =>
        if y1.isDigit && y2.isDigit && y3.isDigit && y4.isDigit then
          some (((y1.toNat - 48) * 10 + (y2.toNat - 48)) * 100 +
                ((y3.toNat - 48) * 10 + (y4.toNat - 48)))
        else none
      | _ => none
  | _ => none

/-- `datetime.strptime(s, "%B %d, %Y")`, `none` standing for `ValueError`. -/
def strptimeBdY (s : String) : Option PyDate :=
  match matchMonth s.toList with
  | none => none
  | some (m, r1) =>
    match wsRun r1 with
    | none => none
    | some r2 =>
      match (dayAlts r2).findSome? (fun p => (afterDay p.2).map (fun y => (p.1, y))) with
      | none => none
      | some (d, y) => mkDatetime y m d

/-- Body shared by both `strptime` attempts in `parse_date_from_text`: try
the normalized capture, then retry with `"  "` and `" ,"` squeezed out. -/
def finishDate (cap : List Char) : Option PyDate :=
  match strptimeBdY (normalize_months (String.mk cap)) with
  | some d => some d
  | none =>
    strptimeBdY (String.mk (replacePair ' ' ',' [',']
      (replacePair ' ' ' ' [' '] (normalize_months (String.mk cap)).toList)))

/-- Source `parse_date_from_text`. -/
def parse_date_from_text (text : String) : Option PyDate :=
  if text = "" then none
  else
    match searchAsOf text.toList with
    | some cap => finishDate cap
    | none =>
      match searchDateGroup text.toList with
      | some cap => finishDate cap
      | none => none

/-! ### HTTP responses and the network oracle

A `Response` carries the fields the source reads. The oracle maps a URL to the
response of `session.head` / `session.get` (`.error ()` models a raised
`requests` exception; the retry adapter is internal to the session) and to the
anchors BeautifulSoup would extract from the HTML body of a GET. -/

structure Response where
  ok : Bool
  status_code : Nat
  content_type : String
  content_disposition : String
deriving DecidableEq, Repr

structure Anchor where
  text : String
  href : String
deriving DecidableEq, Repr

structure Net where
  headResp : String → Except Unit Response
  getResp : String → Except Unit Response
  pageAnchors : String → List Anchor

/-- Source `validate_zip_headers_like_zip`. -/
def validate_zip_headers_like_zip (resp : Response) (url : String) : Bool :=
  let ct := pyLower resp.content_type
  let cd := resp.content_disposition
  let is_zip_ct := containsSubB "zip" ct || containsSubB "application/octet-stream" ct
      || containsSubB "application/x-zip" ct
  let has_zip_name := containsSubB ".zip" (pyLower cd)
  let ends_zip := endsWithB (pyLower url) ".zip" || endsWithB (pyLower url) "zip"
  is_zip_ct || has_zip_name || ends_zip

/-- Spec-side classifier, modelled from the spec's words: confirmation "via
header/content inspection" only — the content-type and content-disposition
disjuncts of the source check, excluding the URL-shape disjunct. Used to
compare the spec's invariant against `validate_zip_headers_like_zip`. -/
def header_content_zip_marker (resp : Response) : Bool :=
  let ct := pyLower resp.content_type
  containsSubB "zip" ct || containsSubB "application/octet-stream" ct
    || containsSubB "application/x-zip" ct
    || containsSubB ".zip" (pyLower resp.content_disposition)

/-- `DOCS_PATH_PAT.search` (pattern `/documents/`, `re.IGNORECASE`). -/
def docsPathHit (url : String) : Bool :=
  containsSubB "/documents/" (pyLower url)

/-- `ZIP_ENDING_PAT.search` (`\.zip$|(?<!\.)zip$`, `re.IGNORECASE`): either
alternative matches at the end of the string. -/
def zipEndingHit (href : String) : Bool :=
  endsWithB (pyLower href) ".zip"
    || (endsWithB (pyLower href) "zip" && !endsWithB (pyLower href) ".zip")

/-- Source `is_zip_like_href`. -/
def is_zip_like_href (href : String) : Bool :=
  zipEndingHit href || docsPathHit href

/-! ### `urllib.parse.urljoin` (library function, modelled for the URL shapes
this pipeline produces: absolute, protocol-relative, root-relative and
relative references without `..` segments). -/

def schemeOf (base : String) : String :=
  String.mk (base.toList.takeWhile (fun c => c ≠ ':'))

def afterSchemeSep : List Char → List Char
  | ':' :: '/' :: '/' :: rest => rest
  | _ :: rest => afterSchemeSep rest
  | [] => []

/-- `scheme://host` of `base`. -/
def schemeHostOf (base : String) : String :=
  schemeOf base ++ "://" ++ String.mk ((afterSchemeSep base.toList).takeWhile (fun c => c ≠ '/'))

/-- `base` truncated after its last `/` (directory of the base URL). -/
def baseDirOf (base : String) : String :=
  let r := base.toList.reverse.dropWhile (fun c => c ≠ '/')
  if r.isEmpty then base ++ "/" else String.mk r.reverse

def urljoin (base url : String) : String :=
  if startsWithB url "http://" || startsWithB url "https://" then url
  else if startsWithB url "//" then schemeOf base ++ ":" ++ url
  else if startsWithB url "/" then schemeHostOf base ++ url
  else baseDirOf base ++ url

/-! ### URL validation and resolution -/

/-- Body of the `try` block in `validate_or_resolve_zip_url` lines 303-316:
probe with HEAD, fall back to a streamed GET. `.error` models an exception
escaping the block. -/
def probe_direct (net : Net) (url : String) : Except Unit (Option String) :=
  match net.headResp url with
  | .error e => .error e
  | .ok h =>
    if decide (h.status_code < 400) && h.ok && validate_zip_headers_like_zip h url then
      .ok (some url)
    else
      match net.getResp url with
      | .error e => .error e
      | .ok g =>
        if g.ok && validate_zip_headers_like_zip g url then .ok (some url) else .ok none

/-- Body of the `try` block inside the candidate loop of
`resolve_document_download_url` lines 277-290. `.ok none` means the loop body
fell through without returning (next iteration). -/
def probe_candidate (net : Net) (cand : String) : Except Unit (Option String) :=
  match net.headResp cand with
  | .error e => .error e
  | .ok h =>
    if decide (h.status_code ≥ 400) || !h.ok || !validate_zip_headers_like_zip h cand then
      match net.getResp cand with
      | .error e => .error e
      | .ok g =>
        if g.ok && validate_zip_headers_like_zip g cand then .ok (some cand) else .ok none
    else .ok (some cand)

/-- Candidate loop of `resolve_document_download_url`: `except: continue`
catches an exception from one iteration. -/
def try_candidates (net : Net) : List String → Except Unit (Option String)
  | [] => .ok none
  | cand :: rest =>
    match probe_candidate net cand with
    | .ok (some u) => .ok (some u)
    | .ok none => try_candidates net rest
    | .error _ => try_candidates net rest

/-- Anchor filter of `resolve_document_download_url` lines 251-264. -/
def landing_candidate_hrefs (doc_url : String) (anchors : List Anchor) : List String :=
  anchors.filterMap (fun a =>
    let href := pyStrip a.href
    if href = "" then none
    else
      let text := pyLower a.text
      let href_l := pyLower href
      if containsSubB "download" text || containsSubB "download" href_l
          || endsWithB href_l ".zip" || endsWithB href_l "zip" then
        some (urljoin doc_url href)
      else none)

/-- De-duplication preserving encounter order (lines 267-272). -/
def dedupSeen (seen : List String) : List String → List String
  | [] => []
  | x :: xs => if x ∈ seen then dedupSeen seen xs else x :: dedupSeen (x :: seen) xs

def dedupKeepFirst (l : List String) : List String :=
  dedupSeen [] l

/-- Source `resolve_document_download_url`. -/
def resolve_document_download_url (net : Net) (doc_url : String) :
    Except Unit (Option String) :=
  match net.getResp doc_url with
  | .error _ => .ok none
  | .ok r =>
    if r.ok && validate_zip_headers_like_zip r doc_url then .ok (some doc_url)
    else if !r.ok then .ok none
    else
      try_candidates net (dedupKeepFirst (landing_candidate_hrefs doc_url (net.pageAnchors doc_url)))

/-- Source `validate_or_resolve_zip_url`. A direct-probe exception is caught
(`except: pass`, falling through to the `/documents/` branch exactly as a
probe that found nothing does). -/
def validate_or_resolve_zip_url (net : Net) (absolute_url : String) :
    Except Unit (Option String) :=
  match probe_direct net absolute_url with
  | .ok (some u) => .ok (some u)
  | _ =>
    if docsPathHit absolute_url then resolve_document_download_url net absolute_url
    else .ok none

/-! ### Index-page anchors and the link classifier -/

def FSA_PAGE : String :=
  "https://www.fsa.usda.gov/tools/informational/freedom-information-act-foia/electronic-reading-room/frequently-requested/crop-acreage-data"

/-- An anchor of the index page together with the BeautifulSoup context the
classifier reads: the text of its nearest `li`/`p`/`div` parent, the nearest
previous text node, and the texts of the previous `h2`/`h3`/`h4` headings
(nearest first). -/
structure IndexAnchor where
  href : String
  text : String
  parentText : Option String
  prevString : Option String
  prevHeadings : List String
deriving DecidableEq, Repr

/-- Source `get_text_with_context`: collect anchor text, parent text and the
stripped previous string, drop empties, de-duplicate keeping first, join with
`" | "`. -/
def get_text_with_context (a : IndexAnchor) : String :=
  let texts :=
    (if a.text ≠ "" then [a.text] else []) ++
    (match a.parentText with
     | some pt => if pt ≠ "" then [pt] else []
     | none => []) ++
    (match a.prevString with
     | some pv => if pv ≠ "" then [pyStrip pv] else []
     | none => [])
  String.intercalate " | " (dedupKeepFirst (texts.filter (fun x => x ≠ "")))

/-- Source `crop_year_from_link_text`
(`CROPYEAR_PREFIX_PAT = ^\s*(20\d{2})\s+acreage\s+data\b`, `re.IGNORECASE`;
anchored, so `search` only matches at the start). -/
def cropYearCore (l : List Char) : Option String :=
  match l.dropWhile pyIsSpace with
  | '2' :: '0' :: c :: d :: rest =>
    if c.isDigit && d.isDigit then
      match wsRun rest with
      | none => none
      | some r2 =>
        if (r2.take 7).map charLower = "acreage".toList then
          match wsRun (r2.drop 7) with
          | none => none
          | some r3 =>
            if (r3.take 4).map charLower = "data".toList then
              match r3.drop 4 with
              | [] => some (String.mk ['2', '0', c, d])
              | e :: _ => if isWordChar e then none else some (String.mk ['2', '0', c, d])
            else none
      else none
    else none
  | _ => none

def crop_year_from_link_text (link_text : String) : Option String :=
  cropYearCore link_text.toList

/-- Source `nearest_crop_year_heading`: scan up to 8 previous headings,
returning the first year found in a heading mentioning "crop year". -/
def nearest_crop_year_heading (prevHeadings : List String) : Option String :=
  (prevHeadings.take 8).findSome? (fun ht =>
    if ht = "" then none
    else if containsSubB "crop year" (pyLower ht) then findYearToken ht
    else none)

/-- The year-precedence chain of `collect_year_zip_links` line 360:
`link_text_year or section_year or year_hint`. -/
def anchor_link_year (a : IndexAnchor) : Option String :=
  match crop_year_from_link_text a.text with
  | some y => some y
  | none =>
    match nearest_crop_year_heading a.prevHeadings with
    | some y => some y
    | none => extract_year_hint (get_text_with_context a)

structure ZipItem where
  year : String
  url : String
  asof : Option PyDate
  text : String
  context : String
deriving DecidableEq, Repr

/-- Source `collect_year_zip_links`. -/
def collect_year_zip_links (net : Net) (anchors : List IndexAnchor)
    (target_year : String) : Except Unit (List ZipItem) :=
  match anchors with
  | [] => .ok []
  | a :: rest =>
    let href := pyStrip a.href
    if !is_zip_like_href href then collect_year_zip_links net rest target_year
    else if anchor_link_year a ≠ some target_year then
      collect_year_zip_links net rest target_year
    else
      match validate_or_resolve_zip_url net (urljoin FSA_PAGE href) with
      | .error e => .error e
      | .ok none => collect_year_zip_links net rest target_year
      | .ok (some zip_url) =>
        match collect_year_zip_links net rest target_year with
        | .error e => .error e
        | .ok items =>
          let context_text := get_text_with_context a
          .ok ({ year := target_year, url := zip_url,
                 asof := parse_date_from_text context_text,
                 text := a.text, context := context_text } :: items)

/-! ### Candidate selector -/

/-- The `datetime` total order restricted to dates (lexicographic on year,
month, day). -/
def dateLe (a b : PyDate) : Prop :=
  a.year < b.year ∨ (a.year = b.year ∧
    (a.month < b.month ∨ (a.month = b.month ∧ a.day ≤ b.day)))

instance : DecidableRel dateLe := fun a b => by unfold dateLe; infer_instance

/-- Sort key of `dated.sort(key=lambda z: z["asof"])`; only applied to dated
items, the default is irrelevant. -/
def asofOf (z : ZipItem) : PyDate :=
  z.asof.getD ⟨0, 0, 0⟩

def keyLe (x y : ZipItem) : Prop :=
  dateLe (asofOf x) (asofOf y)

instance : DecidableRel keyLe := fun x y => by unfold keyLe; infer_instance

/-- Source `choose_latest_for_year`. Python's `list.sort` is the stable
ascending sort, embedded as insertion sort with the non-strict key order. -/
def choose_latest_for_year (zip_items : List ZipItem) : Option ZipItem :=
  if zip_items.isEmpty then none
  else if !(zip_items.filter (fun z => z.asof.isSome)).isEmpty then
    (List.insertionSort keyLe (zip_items.filter (fun z => z.asof.isSome))).getLast?
  else if zip_items.length = 1 then zip_items.head?
  else zip_items.head?

/-! ### Streaming download, orchestrator and year-range batch -/

/-- A streamed GET: `ok` is `raise_for_status` passing; `chunks` the
`iter_content` chunk sequence. -/
structure DlResp where
  ok : Bool
  chunks : List (List Nat)
deriving DecidableEq, Repr

/-- One `iter_content` iteration of `stream_download`: skip falsy (empty)
chunks, append to the file, add to the `downloaded` counter. -/
def stream_step (acc : List Nat × Nat) (part : List Nat) : List Nat × Nat :=
  if part.isEmpty then acc else (acc.1 ++ part, acc.2 + part.length)

/-- The write loop of `stream_download`: final file content and the
`downloaded` byte counter observed during streaming. -/
def stream_write (chunks : List (List Nat)) : List Nat × Nat :=
  chunks.foldl stream_step ([], 0)

structure HeadTag where
  name : String
  text : String
deriving DecidableEq, Repr

/-- Heading scan of `main` lines 469-475 (`soup.find_all(["h2","h3","h4"])`,
keep years of headings mentioning "crop year"). -/
def headingYearsScan (headings : List HeadTag) : List String :=
  (headings.filter (fun h => h.name = "h2" || h.name = "h3" || h.name = "h4")).filterMap
    (fun h => if h.text = "" then none
      else if containsSubB "crop year" (pyLower h.text) then findYearToken h.text
      else none)

def strLe (a b : String) : Prop := ¬ b < a

instance : DecidableRel strLe := fun a b => by unfold strLe; infer_instance

/-- `sorted(all_years)` where `all_years` is the set of scanned years. -/
def availableYearsOf (headings : List HeadTag) : List String :=
  List.insertionSort strLe (dedupKeepFirst (headingYearsScan headings))

/-- Terminal outcome of one `main(target_year, outdir)` run. `sys.exit(n)`
raises `SystemExit(n)`; an uncaught transport exception is `transportError`. -/
inductive MainOutcome where
  | success : MainOutcome
  | noCandidates : List String → MainOutcome
  | noLatest : MainOutcome
  | emptyFile : MainOutcome
  | transportError : MainOutcome
deriving DecidableEq, Repr

/-- The `sys.exit` code of each outcome (`none`: no `sys.exit` call — normal
return for `success`, an exception traceback for `transportError`). -/
def exit_code : MainOutcome → Option Nat
  | .success => none
  | .noCandidates _ => some 2
  | .noLatest => some 3
  | .emptyFile => some 4
  | .transportError => none

/-- Does the outcome abort the interpreter (propagating `SystemExit` or the
exception out of `main`)? -/
def outcomeAborts : MainOutcome → Bool
  | .success => false
  | _ => true

/-- The environment `main` runs against: the parsed index page (anchors with
their context, and all headings in document order), the network oracle, and
the streamed-download oracle. -/
structure World where
  anchors : List IndexAnchor
  headings : List HeadTag
  net : Net
  download : String → Except Unit DlResp

/-- Result of one `main` run: outcome, the file left at the output path (if
any), and the `downloaded` counter when streaming happened. -/
structure MainResult where
  outcome : MainOutcome
  file : Option (List Nat)
  observed : Option Nat
deriving DecidableEq, Repr

/-- Source `main` (lines 451-507), at the level of outcomes and the output
file. -/
def mainModel (w : World) (target_year : String) : MainResult :=
  match collect_year_zip_links w.net w.anchors target_year with
  | .error _ => ⟨.transportError, none, none⟩
  | .ok zip_items =>
    if zip_items.isEmpty then
      ⟨.noCandidates (availableYearsOf w.headings), none, none⟩
    else
      match choose_latest_for_year zip_items with
      | none => ⟨.noLatest, none, none⟩
      | some latest =>
        match w.download latest.url with
        | .error _ => ⟨.transportError, none, none⟩
        | .ok dl =>
          if !dl.ok then ⟨.transportError, none, none⟩
          else if (stream_write dl.chunks).1.length = 0 then
            ⟨.emptyFile, none, some (stream_write dl.chunks).2⟩
          else
            ⟨.success, some (stream_write dl.chunks).1, some (stream_write dl.chunks).2⟩

/-- Source `generate_years_str_range` (`int` of decimal strings taken as
`Nat`). -/
def generate_years_str_range (startY endY : Nat) : List String :=
  (List.range' startY (endY + 1 - startY)).map (fun y => toString y)

/-- The `__main__` loop (lines 517-523): run `main` per year; a non-success
outcome raises (`SystemExit` or the exception) and, uncaught, ends the loop. -/
def batch_run (w : World) : List String → List (String × MainOutcome)
  | [] => []
  | y :: ys =>
    let r := mainModel w y
    (y, r.outcome) :: (if outcomeAborts r.outcome then [] else batch_run w ys)

/-! ### `unzip_files_step2.safe_extract`

Paths are absolute component lists; `Path.resolve()` on not-yet-existing
paths normalizes `.`, `..` and empty segments lexically. -/

/-- `Path.resolve()` component normalization. -/
def resolveComps (acc : List String) : List String → List String
  | [] => acc
  | c :: rest =>
    if c = "" ∨ c = "." then resolveComps acc rest
    else if c = ".." then resolveComps acc.dropLast rest
    else resolveComps (acc ++ [c]) rest

/-- `str(path)` of an absolute path. -/
def pathStr (p : List String) : String :=
  "/" ++ String.intercalate "/" p

/-- Split on `/`, keeping empty segments (Python `"".split("/") == [""]`). -/
def splitSlashAux : List Char → List Char → List String
  | [], cur => [String.mk cur.reverse]
  | c :: rest, cur =>
    if c = '/' then String.mk cur.reverse :: splitSlashAux rest []
    else splitSlashAux rest (c :: cur)

def pySplitSlash (s : String) : List String :=
  splitSlashAux s.toList []

/-- `target_dir / member.filename` (pathlib: an absolute right operand
replaces the left one). -/
def joinMemberPath (target : List String) (filename : String) : List String :=
  if startsWithB filename "/" then pySplitSlash filename
  else target ++ pySplitSlash filename

/-- Is `p` inside directory `dir` (component-wise), the property the
traversal guard is meant to establish? -/
def underDir (dir p : List String) : Bool :=
  List.isPrefixOf dir p

structure ZipMember where
  filename : String
  isDir : Bool
  contents : List Nat
deriving DecidableEq, Repr

/-- Source `safe_extract`: process members in order; a blocked member stops
extraction with the `RuntimeError` message, files written so far (resolved
path and contents) are kept. -/
def safe_extract (target_dir : List String) :
    List ZipMember → List (List String × List Nat) × Option String
  | [] => ([], none)
  | m :: rest =>
    let member_path := resolveComps [] (joinMemberPath target_dir m.filename)
    if !startsWithB (pathStr member_path) (pathStr (resolveComps [] target_dir)) then
      ([], some ("Blocked path traversal attempt in `" ++ m.filename ++ "`"))
    else if m.isDir then safe_extract target_dir rest
    else
      let r := safe_extract target_dir rest
      ((member_path, m.contents) :: r.1, r.2)

/-! ### Concrete fixtures shared by several claims -/

def respZipEx : Response := ⟨true, 200, "application/zip", ""⟩

def respHtmlEx : Response := ⟨true, 200, "text/html; charset=utf-8", ""⟩

def urlDataZip : String := "https://ex.com/data.zip"

/-- A net whose only knowledge is an HTML-typed response for `urlDataZip`. -/
def netUrlShapeOnly : Net :=
  ⟨fun u => if u = urlDataZip then .ok respHtmlEx else .error (),
   fun u => if u = urlDataZip then .ok respHtmlEx else .error (),
   fun _ => []⟩

/-- A net serving a real ZIP response for `urlDataZip`. -/
def netDirectZip : Net :=
  ⟨fun u => if u = urlDataZip then .ok respZipEx else .error (),
   fun u => if u = urlDataZip then .ok respZipEx else .error (),
   fun _ => []⟩

/-- A net on which every transport call raises. -/
def netAllFail : Net := ⟨fun _ => .error (), fun _ => .error (), fun _ => []⟩

/-- Index anchor "2024 acreage data" under an older-year heading. -/
def anchor2024 : IndexAnchor :=
  ⟨"https://ex.com/data2024.zip", "2024 acreage data", none, none, ["2019 Crop Year"]⟩

def netIndex2024 : Net :=
  ⟨fun u => if u = "https://ex.com/data2024.zip" then .ok respZipEx else .error (),
   fun u => if u = "https://ex.com/data2024.zip" then .ok respZipEx else .error (),
   fun _ => []⟩

/-- World where the 2024 download streams the bytes `[80, 75, 3, 4]`. -/
def worldOk : World :=
  ⟨[anchor2024], [], netIndex2024,
   fun u => if u = "https://ex.com/data2024.zip" then .ok ⟨true, [[80, 75], [3, 4]]⟩
            else .error ()⟩

/-- World where the 2024 download streams an empty body. -/
def worldEmptyBody : World :=
  ⟨[anchor2024], [], netIndex2024,
   fun u => if u = "https://ex.com/data2024.zip" then .ok ⟨true, []⟩ else .error ()⟩

/-- World whose index page only has a "2008 Crop Year" section and no links. -/
def worldNoMatches : World :=
  ⟨[], [⟨"h2", "2008 Crop Year Data"⟩], netAllFail, fun _ => .error ()⟩

/-! ### C9 — `safe_extract` path traversal -/

/-- C9 (code_bug): the claim says `safe_extract` raises before writing any
member whose resolved path escapes the target directory, so no file is ever
created outside it. The guard is a plain string-`startswith` check without a
separator, so the member `../extract_evil/pwned.txt` of a zip extracted to
`/tmp/extract` resolves to `/tmp/extract_evil/pwned.txt`, passes the check
(`"/tmp/extract"` is a string prefix), and is written outside the target
directory with no `RuntimeError`. -/
theorem c9_path_traversal_escape :
    safe_extract ["tmp", "extract"] [⟨"../extract_evil/pwned.txt", false, [1, 2, 3]⟩] =
      ([(["tmp", "extract_evil", "pwned.txt"], [1, 2, 3])], none) ∧
    underDir ["tmp", "extract"] ["tmp", "extract_evil", "pwned.txt"] = false ∧
    startsWithB (pathStr ["tmp", "extract_evil", "pwned.txt"])
      (pathStr ["tmp", "extract"]) = true := by
  refine ⟨rfl, rfl, rfl⟩

/-! ### C2 — a failing year aborts the whole range -/

/-- C2 (code_bug): the claim says a failure on one year of a contiguous range
does not abort the batch and one outcome is produced per requested year. In
the code `main` calls `sys.exit(2)` when a year has no candidates and the
`__main__` loop has no handler, so the raised `SystemExit` ends the loop: over
the range 2007-2008 on a page whose only section is "2008 Crop Year", the
batch produces a single outcome, for 2007, and never processes 2008. -/
theorem c2_range_abort_on_failure :
    generate_years_str_range 2007 2008 = ["2007", "2008"] ∧
    batch_run worldNoMatches (generate_years_str_range 2007 2008) =
      [("2007", MainOutcome.noCandidates ["2008"])] ∧
    ("2008" ∈ (batch_run worldNoMatches (generate_years_str_range 2007 2008)).map
        Prod.fst) = False := by
  refine ⟨by decide, by decide, by decide⟩

/-! ### C5 — month normalization and date-parser totality -/

/-- Every `MONTH_FIX` entry `(abbr, full)` parses the same as its full month
name and successfully, in an `as of` context. -/
def date_abbrev_check : Bool :=
  MONTH_FIX.all (fun p =>
    (parse_date_from_text ("as of " ++ p.1 ++ " 5, 2024")
        == parse_date_from_text ("as of " ++ p.2 ++ " 5, 2024"))
    && (parse_date_from_text ("as of " ++ p.2 ++ " 5, 2024")).isSome)

theorem mkDatetime_valid {y m d : Nat} {dt : PyDate} (h : mkDatetime y m d = some dt) :
    1 ≤ dt.month ∧ dt.month ≤ 12 ∧ 1 ≤ dt.day ∧
      dt.day ≤ daysInMonth dt.year dt.month ∧ 1 ≤ dt.year := by
  unfold mkDatetime at h
  split at h
  · next hc =>
    injection h with h
    subst h
    exact ⟨hc.2.2.1, hc.2.2.2.1, hc.2.2.2.2.1, hc.2.2.2.2.2, hc.1⟩
  · exact absurd h (by simp)

theorem strptimeBdY_valid {s : String} {dt : PyDate} (h : strptimeBdY s = some dt) :
    1 ≤ dt.month ∧ dt.month ≤ 12 ∧ 1 ≤ dt.day ∧
      dt.day ≤ daysInMonth dt.year dt.month ∧ 1 ≤ dt.year := by
  unfold strptimeBdY at h
  split at h
  · exact absurd h (by simp)
  · split at h
    · exact absurd h (by simp)
    · split at h
      · exact absurd h (by simp)
      · exact mkDatetime_valid h

theorem finishDate_valid {cap : List Char} {dt : PyDate} (h : finishDate cap = some dt) :
    1 ≤ dt.month ∧ dt.month ≤ 12 ∧ 1 ≤ dt.day ∧
      dt.day ≤ daysInMonth dt.year dt.month ∧ 1 ≤ dt.year := by
  unfold finishDate at h
  split at h
  · next d heq =>
    injection h with h
    subst h
    exact strptimeBdY_valid heq
  · exact strptimeBdY_valid h

theorem parse_date_valid {s : String} {dt : PyDate}
    (h : parse_date_from_text s = some dt) :
    1 ≤ dt.month ∧ dt.month ≤ 12 ∧ 1 ≤ dt.day ∧
      dt.day ≤ daysInMonth dt.year dt.month ∧ 1 ≤ dt.year := by
  unfold parse_date_from_text at h
  split at h
  · exact absurd h (by simp)
  · split at h
    · exact finishDate_valid h
    · split at h
      · exact finishDate_valid h
      · exact absurd h (by simp)

/-- C5 (corrected, counterexample): the claim says the parser normalizes every
abbreviated leading month token before parsing. The token `Sept.` (with dot)
is not a key of `MONTH_FIX`, so `normalize_months` leaves it unchanged and the
date yields `none`, although the same date written `Sept` or in full parses
fine. -/
theorem c5_abbrev_counterexample :
    parse_date_from_text "as of Sept. 5, 2024" = none ∧
    normalize_months "Sept. 5, 2024" = "Sept. 5, 2024" ∧
    parse_date_from_text "as of Sept 5, 2024" = some ⟨2024, 9, 5⟩ ∧
    parse_date_from_text "as of September 5, 2024" = some ⟨2024, 9, 5⟩ := by
  refine ⟨by decide, by decide, by decide, by decide⟩

/-- C5 (amended): the parser normalizes an abbreviated leading month token
exactly when it is one of the thirteen `MONTH_FIX` entries (each then parses
as its full month name does); tokens outside the table are left unchanged and
fail parsing; malformed or absent dates yield `none`; and every parsed result
is a valid calendar date — the embedding returns through `Option` everywhere
the code catches, so no exception escapes. -/
theorem c5_month_normalization :
    date_abbrev_check = true ∧
    parse_date_from_text "" = none ∧
    parse_date_from_text "released Foo 99, 2024" = none ∧
    (∀ s, parse_date_from_text s = none ∨
      ∃ d, parse_date_from_text s = some d ∧ 1 ≤ d.month ∧ d.month ≤ 12 ∧
        1 ≤ d.day ∧ d.day ≤ daysInMonth d.year d.month ∧ 1 ≤ d.year) := by
  refine ⟨by decide, by decide, by decide, fun s => ?_⟩
  cases h : parse_date_from_text s with
  | none => exact Or.inl rfl
  | some d =>
    obtain ⟨h1, h2, h3, h4, h5⟩ := parse_date_valid h
    exact Or.inr ⟨d, rfl, h1, h2, h3, h4, h5⟩

/-! ### Resolution invariants (C1, C6, C10) -/

theorem probe_direct_spec {net : Net} {url v : String}
    (h : probe_direct net url = .ok (some v)) :
    v = url ∧ ∃ r, (net.headResp url = .ok r ∨ net.getResp url = .ok r) ∧
      r.ok = true ∧ validate_zip_headers_like_zip r url = true := by
  unfold probe_direct at h
  split at h
  · exact absurd h (by simp)
  · next hr hhead =>
    split at h
    · next hc =>
      injection h with h
      injection h with h
      simp only [Bool.and_eq_true] at hc
      exact ⟨h.symm, hr, Or.inl hhead, hc.1.2, hc.2⟩
    · next hc =>
      split at h
      · exact absurd h (by simp)
      · next g hget =>
        split at h
        · next hgc =>
          injection h with h
          injection h with h
          simp only [Bool.and_eq_true] at hgc
          exact ⟨h.symm, g, Or.inr hget, hgc.1, hgc.2⟩
        · exact absurd h (by simp)

theorem probe_candidate_spec {net : Net} {cand v : String}
    (h : probe_candidate net cand = .ok (some v)) :
    v = cand ∧ ∃ r, (net.headResp cand = .ok r ∨ net.getResp cand = .ok r) ∧
      r.ok = true ∧ validate_zip_headers_like_zip r cand = true := by
  unfold probe_candidate at h
  split at h
  · exact absurd h (by simp)
  · next hr hhead =>
    split at h
    · next hc =>
      split at h
      · exact absurd h (by simp)
      · next g hget =>
        split at h
        · next hgc =>
          injection h with h
          injection h with h
          simp only [Bool.and_eq_true] at hgc
          exact ⟨h.symm, g, Or.inr hget, hgc.1, hgc.2⟩
        · exact absurd h (by simp)
    · next hc =>
      injection h with h
      injection h with h
      simp only [Bool.or_eq_true, decide_eq_true_eq, Bool.not_eq_true', not_or, ne_eq,
        Bool.not_eq_false] at hc
      exact ⟨h.symm, hr, Or.inl hhead, hc.1.2, hc.2⟩

theorem try_candidates_spec {net : Net} {v : String} :
    ∀ {cands : List String}, try_candidates net cands = .ok (some v) →
      ∃ r, (net.headResp v = .ok r ∨ net.getResp v = .ok r) ∧
        r.ok = true ∧ validate_zip_headers_like_zip r v = true := by
  intro cands
  induction cands with
  | nil => intro h; exact absurd h (by simp [try_candidates])
  | cons cand rest ih =>
    intro h
    unfold try_candidates at h
    split at h
    · next u hp =>
      injection h with h
      injection h with h
      obtain ⟨hu, r, hr, hok, hval⟩ := probe_candidate_spec hp
      subst hu
      exact ⟨r, by rw [h] at hr; exact hr, hok, by rw [← h]; exact hval⟩
    · exact ih h
    · exact ih h

theorem resolve_document_spec {net : Net} {doc_url v : String}
    (h : resolve_document_download_url net doc_url = .ok (some v)) :
    ∃ r, (net.headResp v = .ok r ∨ net.getResp v = .ok r) ∧
      r.ok = true ∧ validate_zip_headers_like_zip r v = true := by
  unfold resolve_document_download_url at h
  split at h
  · exact absurd h (by simp)
  · next r hget =>
    split at h
    · next hc =>
      injection h with h
      injection h with h
      simp only [Bool.and_eq_true] at hc
      subst h
      exact ⟨r, Or.inr hget, hc.1, hc.2⟩
    · split at h
      · exact absurd h (by simp)
      · exact try_candidates_spec h

/-- C1 (corrected, amended theorem): every URL returned by resolution — by
`validate_or_resolve_zip_url` directly or by `resolve_document_download_url`
behind a landing page — produced a successful probe response (HEAD or GET)
that passed `validate_zip_headers_like_zip`; that check accepts header/content
markers or the URL ending in the zip token, so URL shape is one of the
accepted confirmation signals. -/
theorem c1_resolution_confirmation :
    (∀ (net : Net) (url v : String),
      validate_or_resolve_zip_url net url = .ok (some v) →
      ∃ r, (net.headResp v = .ok r ∨ net.getResp v = .ok r) ∧
        r.ok = true ∧ validate_zip_headers_like_zip r v = true) ∧
    (∀ (net : Net) (doc_url v : String),
      resolve_document_download_url net doc_url = .ok (some v) →
      ∃ r, (net.headResp v = .ok r ∨ net.getResp v = .ok r) ∧
        r.ok = true ∧ validate_zip_headers_like_zip r v = true) := by
  constructor
  · intro net url v h
    unfold validate_or_resolve_zip_url at h
    split at h
    · next u hp =>
      injection h with h
      injection h with h
      obtain ⟨hu, r, hr, hok, hval⟩ := probe_direct_spec hp
      subst hu
      exact ⟨r, by rw [h] at hr; exact hr, hok, by rw [← h]; exact hval⟩
    · split at h
      · exact resolve_document_spec h
      · exact absurd h (by simp)
  · intro net doc_url v h
    exact resolve_document_spec h

/-- C1 (corrected, counterexample): for a URL ending in `.zip` whose probe
responses are plain HTML with no zip marker in any header, resolution still
returns the URL — it is classified as binary from the shape of the URL string
alone, refuting "never classified as binary from the shape of the URL string
alone". -/
theorem c1_url_shape_counterexample :
    validate_or_resolve_zip_url netUrlShapeOnly urlDataZip = .ok (some urlDataZip) ∧
    netUrlShapeOnly.headResp urlDataZip = .ok respHtmlEx ∧
    netUrlShapeOnly.getResp urlDataZip = .ok respHtmlEx ∧
    header_content_zip_marker respHtmlEx = false := by
  refine ⟨rfl, rfl, rfl, by decide⟩

/-- C1 witness: a resolution that succeeds against a net serving a real ZIP
response, instantiating the amended invariant. -/
theorem c1_resolution_confirmation_witness :
    ∃ r, (netDirectZip.headResp urlDataZip = .ok r ∨
          netDirectZip.getResp urlDataZip = .ok r) ∧
      r.ok = true ∧ validate_zip_headers_like_zip r urlDataZip = true :=
  c1_resolution_confirmation.1 netDirectZip urlDataZip urlDataZip rfl

/-- The source check accepts any response whose content-type is
`application/zip`, whatever the other headers and the URL. -/
theorem validate_of_ct_zip {h : Response} (hct : h.content_type = "application/zip") :
    ∀ url, validate_zip_headers_like_zip h url = true := by
  intro url
  unfold validate_zip_headers_like_zip
  rw [hct]
  have h1 : containsSubB "zip" (pyLower "application/zip") = true := by decide
  simp [h1]

/-- C6 (confirmed): a candidate whose HEAD probe succeeds with content-type
`application/zip` resolves to itself, and the result only depends on that HEAD
response — any net agreeing on it yields the same answer, so neither the GET
fallback nor the landing-page logic (`resolve_document_download_url`) is
consulted. -/
theorem c6_direct_zip_unchanged :
    ∀ (net : Net) (url : String) (h : Response),
      net.headResp url = .ok h → h.ok = true → h.status_code < 400 →
      h.content_type = "application/zip" →
      validate_or_resolve_zip_url net url = .ok (some url) ∧
      ∀ net2 : Net, net2.headResp url = .ok h →
        validate_or_resolve_zip_url net2 url = .ok (some url) := by
  intro net url h hhead hok hlt hct
  have hcond : (decide (h.status_code < 400) && h.ok &&
      validate_zip_headers_like_zip h url) = true := by
    rw [hok, validate_of_ct_zip hct url, decide_eq_true hlt]
    rfl
  have key : ∀ net2 : Net, net2.headResp url = .ok h →
      validate_or_resolve_zip_url net2 url = .ok (some url) := by
    intro net2 hhead2
    have hp : probe_direct net2 url = .ok (some url) := by
      unfold probe_direct
      split
      · next heq => rw [hhead2] at heq; exact absurd heq (by simp)
      · next hr heq =>
        rw [hhead2] at heq
        injection heq with heq
        subst heq
        rw [if_pos hcond]
    unfold validate_or_resolve_zip_url
    rw [hp]
  exact ⟨key net hhead, key⟩

/-- C6 witness at the concrete ZIP-serving net. -/
theorem c6_direct_zip_unchanged_witness :
    validate_or_resolve_zip_url netDirectZip urlDataZip = .ok (some urlDataZip) :=
  (c6_direct_zip_unchanged netDirectZip urlDataZip respZipEx rfl rfl
    (by decide) rfl).1

theorem try_candidates_total (net : Net) :
    ∀ cands : List String, ∃ v, try_candidates net cands = .ok v := by
  intro cands
  induction cands with
  | nil => exact ⟨none, rfl⟩
  | cons cand rest ih =>
    unfold try_candidates
    cases hp : probe_candidate net cand with
    | error e => exact ih
    | ok o =>
      cases o with
      | none => exact ih
      | some u => exact ⟨some u, rfl⟩

theorem resolve_document_total (net : Net) (doc_url : String) :
    ∃ v, resolve_document_download_url net doc_url = .ok v := by
  obtain ⟨vc, hvc⟩ := try_candidates_total net
    (dedupKeepFirst (landing_candidate_hrefs doc_url (net.pageAnchors doc_url)))
  cases hg : net.getResp doc_url with
  | error e => exact ⟨none, by unfold resolve_document_download_url; rw [hg]⟩
  | ok r =>
    by_cases h1 : (r.ok && validate_zip_headers_like_zip r doc_url) = true
    · refine ⟨some doc_url, ?_⟩
      unfold resolve_document_download_url
      rw [hg]
      exact if_pos h1
    · by_cases h2 : (!r.ok) = true
      · refine ⟨none, ?_⟩
        unfold resolve_document_download_url
        rw [hg]
        exact (if_neg h1).trans (if_pos h2)
      · refine ⟨vc, ?_⟩
        unfold resolve_document_download_url
        rw [hg]
        exact ((if_neg h1).trans (if_neg h2)).trans hvc

/-- C10 (confirmed): resolution is total at its public boundary — for every
net (including ones whose transport calls all raise) and every URL, neither
`validate_or_resolve_zip_url` nor `resolve_document_download_url` propagates a
transport error; and when every transport call fails, the candidate is dropped
with a null result. -/
theorem c10_resolution_total :
    ∀ (net : Net) (url : String),
      (∃ v, validate_or_resolve_zip_url net url = .ok v) ∧
      (∃ v, resolve_document_download_url net url = .ok v) ∧
      ((∀ u, net.headResp u = .error () ∧ net.getResp u = .error ()) →
        validate_or_resolve_zip_url net url = .ok none) := by
  intro net url
  refine ⟨?_, resolve_document_total net url, ?_⟩
  · unfold validate_or_resolve_zip_url
    cases hp : probe_direct net url with
    | error e =>
      by_cases hd : docsPathHit url = true
      · simpa [hd] using resolve_document_total net url
      · exact ⟨none, by simp [hd]⟩
    | ok o =>
      cases o with
      | some u => exact ⟨some u, rfl⟩
      | none =>
        by_cases hd : docsPathHit url = true
        · simpa [hd] using resolve_document_total net url
        · exact ⟨none, by simp [hd]⟩
  · intro hfail
    have hp : probe_direct net url = .error () := by
      unfold probe_direct
      rw [(hfail url).1]
    have hres : resolve_document_download_url net url = .ok none := by
      unfold resolve_document_download_url
      rw [(hfail url).2]
    unfold validate_or_resolve_zip_url
    rw [hp]
    by_cases hd : docsPathHit url = true
    · simp only [hd, if_true]
      exact hres
    · simp [hd]

/-- C10 witness: against the all-raising net, resolution of a `/documents/`
URL returns a null result without propagating the exception. -/
theorem c10_resolution_total_witness :
    validate_or_resolve_zip_url netAllFail "https://ex.com/documents/42" = .ok none :=
  (c10_resolution_total netAllFail "https://ex.com/documents/42").2.2
    (fun _ => ⟨rfl, rfl⟩)

/-! ### C4 — link-text year precedence -/

theorem cropYearCore_shape (d1 d2 : Char) (tail : List Char)
    (h1 : d1.isDigit = true) (h2 : d2.isDigit = true)
    (hb : tail = [] ∨ ∃ c t2, tail = c :: t2 ∧ isWordChar c = false) :
    cropYearCore (['2', '0', d1, d2, ' '] ++ "acreage data".toList ++ tail) =
      some (String.mk ['2', '0', d1, d2]) := by
  rcases hb with rfl | ⟨c, t2, rfl, hw⟩
  · show (if (d1.isDigit && d2.isDigit) = true
        then some (String.mk ['2', '0', d1, d2]) else none) =
      some (String.mk ['2', '0', d1, d2])
    rw [if_pos (by rw [h1, h2]; rfl)]
  · show (if (d1.isDigit && d2.isDigit) = true
        then (if isWordChar c = true then none else some (String.mk ['2', '0', d1, d2]))
        else none) = some (String.mk ['2', '0', d1, d2])
    rw [if_pos (by rw [h1, h2]; rfl), if_neg (by rw [hw]; exact Bool.false_ne_true)]

/-- C4 (confirmed): the year-assignment chain of the classifier gives absolute
precedence to the link text — whenever `crop_year_from_link_text` extracts a
year, that year is assigned whatever the surrounding headings or context hint
say; and for any anchor whose own text is a year token, a space and the phrase
`acreage data` followed by a non-word character or the end, the extracted year
is exactly that token. -/
theorem c4_link_text_year_precedence :
    (∀ (a : IndexAnchor) (y : String),
      crop_year_from_link_text a.text = some y → anchor_link_year a = some y) ∧
    (∀ (a : IndexAnchor) (d1 d2 : Char) (tail : List Char),
      d1.isDigit = true → d2.isDigit = true →
      a.text.toList = ['2', '0', d1, d2, ' '] ++ "acreage data".toList ++ tail →
      (tail = [] ∨ ∃ c t2, tail = c :: t2 ∧ isWordChar c = false) →
      anchor_link_year a = some (String.mk ['2', '0', d1, d2])) := by
  have hprec : ∀ (a : IndexAnchor) (y : String),
      crop_year_from_link_text a.text = some y → anchor_link_year a = some y := by
    intro a y h
    unfold anchor_link_year
    rw [h]
  refine ⟨hprec, fun a d1 d2 tail h1 h2 htext hb => ?_⟩
  apply hprec
  unfold crop_year_from_link_text
  rw [htext]
  exact cropYearCore_shape d1 d2 tail h1 h2 hb

/-- C4 witness: the anchor "2024 acreage data" sitting under a "2019 Crop
Year" heading is classified as 2024. -/
theorem c4_link_text_year_precedence_witness :
    anchor_link_year anchor2024 = some "2024" ∧
    nearest_crop_year_heading anchor2024.prevHeadings = some "2019" :=
  ⟨c4_link_text_year_precedence.2 anchor2024 '2' '4' [] rfl rfl rfl (Or.inl rfl),
   rfl⟩

/-! ### C7 — zero-byte download and success invariant -/

theorem stream_foldl_inv :
    ∀ (chunks : List (List Nat)) (acc : List Nat × Nat), acc.2 = acc.1.length →
      (chunks.foldl stream_step acc).2 = (chunks.foldl stream_step acc).1.length := by
  intro chunks
  induction chunks with
  | nil => intro acc h; exact h
  | cons p ps ih =>
    intro acc h
    simp only [List.foldl_cons]
    apply ih
    unfold stream_step
    split
    · exact h
    · simp [h]

/-- The `downloaded` counter printed during streaming equals the number of
bytes written. -/
theorem stream_write_observed (chunks : List (List Nat)) :
    (stream_write chunks).2 = (stream_write chunks).1.length :=
  stream_foldl_inv chunks ([], 0) rfl

/-- C7 (confirmed): if the stream loop wrote zero bytes, the year's run ends
in the `emptyFile` outcome (`sys.exit(4)`) with the file removed; and a
`success` outcome implies a non-empty file exists at the output path whose
size is exactly the byte count observed during streaming. -/
theorem c7_empty_download_failure :
    ∀ (w : World) (ty : String),
      ((mainModel w ty).observed = some 0 →
        (mainModel w ty).outcome = .emptyFile ∧ (mainModel w ty).file = none) ∧
      ((mainModel w ty).outcome = .success →
        ∃ c, (mainModel w ty).file = some c ∧ c.length ≠ 0 ∧
          (mainModel w ty).observed = some c.length) := by
  intro w ty
  unfold mainModel
  split
  · exact ⟨fun h => absurd h (by simp), fun h => absurd h (by simp)⟩
  · split
    · exact ⟨fun h => absurd h (by simp), fun h => absurd h (by simp)⟩
    · split
      · exact ⟨fun h => absurd h (by simp), fun h => absurd h (by simp)⟩
      · next latest hch =>
        split
        · exact ⟨fun h => absurd h (by simp), fun h => absurd h (by simp)⟩
        · next dl hdl =>
          split
          · exact ⟨fun h => absurd h (by simp), fun h => absurd h (by simp)⟩
          · split
            · next hlen =>
              exact ⟨fun _ => ⟨rfl, rfl⟩, fun h => absurd h (by simp)⟩
            · next hlen =>
              constructor
              · intro h
                exfalso
                apply hlen
                simp only [MainResult.observed] at h
                injection h with h
                rw [← stream_write_observed]
                exact h
              · intro _
                exact ⟨(stream_write dl.chunks).1, rfl, hlen,
                  by simp only [MainResult.observed, stream_write_observed]⟩

/-- C7 witness: on `worldEmptyBody` the zero-byte download yields the failure
outcome with no file; on `worldOk` success yields the streamed non-empty
file. -/
theorem c7_empty_download_failure_witness :
    ((mainModel worldEmptyBody "2024").outcome = .emptyFile ∧
      (mainModel worldEmptyBody "2024").file = none) ∧
    (∃ c, (mainModel worldOk "2024").file = some c ∧ c.length ≠ 0 ∧
      (mainModel worldOk "2024").observed = some c.length) :=
  ⟨(c7_empty_download_failure worldEmptyBody "2024").1 rfl,
   (c7_empty_download_failure worldOk "2024").2 rfl⟩

/-! ### C8 — distinct no-candidates outcome with available years -/

theorem mem_dedupSeen {x : String} :
    ∀ {l seen : List String}, x ∈ dedupSeen seen l ↔ x ∈ l ∧ x ∉ seen := by
  intro l
  induction l with
  | nil => intro seen; simp [dedupSeen]
  | cons a t ih =>
    intro seen
    unfold dedupSeen
    by_cases ha : a ∈ seen
    · rw [if_pos ha, ih]
      constructor
      · rintro ⟨hx, hns⟩
        exact ⟨List.mem_cons_of_mem _ hx, hns⟩
      · rintro ⟨hx, hns⟩
        rcases List.mem_cons.mp hx with rfl | hx
        · exact absurd ha hns
        · exact ⟨hx, hns⟩
    · rw [if_neg ha]
      constructor
      · intro hx
        rcases List.mem_cons.mp hx with rfl | hx
        · exact ⟨List.mem_cons_self _ _, ha⟩
        · obtain ⟨hmem, hnotin⟩ := ih.mp hx
          refine ⟨List.mem_cons_of_mem _ hmem, fun hc => hnotin (List.mem_cons_of_mem _ hc)⟩
      · rintro ⟨hx, hns⟩
        rcases List.mem_cons.mp hx with rfl | hx
        · exact List.mem_cons_self _ _
        · by_cases hxa : x = a
          · subst hxa; exact List.mem_cons_self _ _
          · refine List.mem_cons_of_mem _ (ih.mpr ⟨hx, fun hc => ?_⟩)
            rcases List.mem_cons.mp hc with h | h
            · exact hxa h
            · exact hns h

theorem mem_availableYearsOf {hs : List HeadTag} {y : String}
    (h : y ∈ headingYearsScan hs) : y ∈ availableYearsOf hs := by
  unfold availableYearsOf
  rw [(List.perm_insertionSort strLe (dedupKeepFirst (headingYearsScan hs))).mem_iff]
  unfold dedupKeepFirst
  exact mem_dedupSeen.mpr ⟨h, by simp⟩

/-- C8 (confirmed): when no candidates exist for the requested year the run
ends in the dedicated `noCandidates` outcome carrying exactly the years
scanned from the `h2`/`h3`/`h4` "crop year" section headings; its exit code 2
differs from the other failure codes (3, 4) and from success, and the outcome
is not a raised transport error; every year found by the heading scan — in
particular any other year present on the page — is listed. -/
theorem c8_no_candidates_outcome :
    ∀ (w : World) (ty : String),
      collect_year_zip_links w.net w.anchors ty = .ok [] →
      mainModel w ty = ⟨.noCandidates (availableYearsOf w.headings), none, none⟩ ∧
      exit_code (MainOutcome.noCandidates (availableYearsOf w.headings)) = some 2 ∧
      exit_code .noLatest = some 3 ∧
      exit_code .emptyFile = some 4 ∧
      exit_code .success = none ∧
      (∀ avail, MainOutcome.noCandidates avail ≠ .transportError ∧
        MainOutcome.noCandidates avail ≠ .success) ∧
      (∀ y, y ∈ headingYearsScan w.headings → y ∈ availableYearsOf w.headings) := by
  intro w ty h
  refine ⟨?_, rfl, rfl, rfl, rfl, fun avail => ⟨by simp, by simp⟩,
    fun y hy => mem_availableYearsOf hy⟩
  unfold mainModel
  rw [h]
  rfl

/-- C8 witness: a page whose only section is "2008 Crop Year Data" and a
request for 2024. -/
theorem c8_no_candidates_outcome_witness :
    mainModel worldNoMatches "2024" =
      ⟨.noCandidates (availableYearsOf worldNoMatches.headings), none, none⟩ ∧
    "2008" ∈ availableYearsOf worldNoMatches.headings :=
  ⟨(c8_no_candidates_outcome worldNoMatches "2024" rfl).1,
   (c8_no_candidates_outcome worldNoMatches "2024" rfl).2.2.2.2.2.2 "2008" (by decide)⟩

/-! ### C3 — candidate selector characterization -/

theorem dateLe_refl (a : PyDate) : dateLe a a := by
  unfold dateLe; omega

theorem dateLe_trans {a b c : PyDate} (h1 : dateLe a b) (h2 : dateLe b c) :
    dateLe a c := by
  unfold dateLe at h1 h2 ⊢; omega

theorem dateLe_total (a b : PyDate) : dateLe a b ∨ dateLe b a := by
  unfold dateLe; omega

theorem keyLe_refl (x : ZipItem) : keyLe x x := dateLe_refl _

theorem keyLe_trans {x y z : ZipItem} (h1 : keyLe x y) (h2 : keyLe y z) :
    keyLe x z := dateLe_trans h1 h2

theorem keyLe_total (x y : ZipItem) : keyLe x y ∨ keyLe y x := dateLe_total _ _

instance : IsTotal ZipItem keyLe := ⟨keyLe_total⟩

instance : IsTrans ZipItem keyLe := ⟨fun _ _ _ => keyLe_trans⟩

theorem getLast?_mem {α : Type} : ∀ {l : List α} {m : α}, l.getLast? = some m → m ∈ l := by
  intro l
  induction l with
  | nil => intro m h; simp at h
  | cons a t ih =>
    intro m h
    cases t with
    | nil =>
      simp only [List.getLast?_singleton, Option.some.injEq] at h
      subst h
      exact List.mem_cons_self _ _
    | cons b t2 =>
      rw [List.getLast?_cons_cons] at h
      exact List.mem_cons_of_mem _ (ih h)

/-- Inserting into a sorted list: the last element stays the previous last
unless the new element is strictly greater, in which case it becomes last. -/
theorem getLast?_orderedInsert (a : ZipItem) :
    ∀ s : List ZipItem, s.Sorted keyLe → ∀ m, s.getLast? = some m →
      (List.orderedInsert keyLe a s).getLast? = some (if keyLe a m then m else a) := by
  intro s
  induction s with
  | nil => intro _ m hm; simp at hm
  | cons y ys ih =>
    intro hsort m hm
    simp only [List.orderedInsert]
    by_cases hay : keyLe a y
    · rw [if_pos hay]
      cases ys with
      | nil =>
        have hm' : y = m := by simpa using hm
        subst hm'
        rw [if_pos hay]
        simp
      | cons z zs =>
        have hmem : m ∈ y :: z :: zs := getLast?_mem hm
        have ham : keyLe a m := by
          rcases List.mem_cons.mp hmem with rfl | hmem2
          · exact hay
          · exact keyLe_trans hay ((List.sorted_cons.mp hsort).1 m hmem2)
        rw [if_pos ham, List.getLast?_cons_cons]
        exact hm
    · rw [if_neg hay]
      cases ys with
      | nil =>
        have hm' : y = m := by simpa using hm
        subst hm'
        rw [if_neg hay]
        simp [List.orderedInsert]
      | cons z zs =>
        have hsort2 : (z :: zs).Sorted keyLe := (List.sorted_cons.mp hsort).2
        have hm2 : (z :: zs).getLast? = some m := by
          rw [← List.getLast?_cons_cons]; exact hm
        have hrec := ih hsort2 m hm2
        cases hoi : List.orderedInsert keyLe a (z :: zs) with
        | nil =>
          exfalso
          have hlen := List.orderedInsert_length (r := keyLe) (z :: zs) a
          rw [hoi] at hlen
          simp at hlen
        | cons u t2 =>
          rw [hoi] at hrec
          rw [List.getLast?_cons_cons]
          exact hrec

/-- The last element of the stable ascending sort is the last-encountered
element of maximal key: it bounds every element, and every element strictly
after it in encounter order is strictly below it. -/
theorem insertionSort_getLast_max :
    ∀ l : List ZipItem, l ≠ [] →
      ∃ w l1 l2, (List.insertionSort keyLe l).getLast? = some w ∧
        l = l1 ++ w :: l2 ∧ (∀ z ∈ l, keyLe z w) ∧ ∀ z ∈ l2, ¬ keyLe w z := by
  intro l
  induction l with
  | nil => intro h; exact absurd rfl h
  | cons a t ih =>
    intro _
    cases t with
    | nil =>
      refine ⟨a, [], [], by simp [List.insertionSort, List.orderedInsert], rfl, ?_, ?_⟩
      · intro z hz
        rcases List.mem_cons.mp hz with rfl | hz
        · exact keyLe_refl _
        · simp at hz
      · intro z hz
        simp at hz
    | cons b t2 =>
      obtain ⟨w, l1, l2, hlast, hdec, hall, hafter⟩ := ih (by simp)
      have hsorted := List.sorted_insertionSort keyLe (b :: t2)
      have hins : List.insertionSort keyLe (a :: b :: t2) =
          List.orderedInsert keyLe a (List.insertionSort keyLe (b :: t2)) := rfl
      by_cases haw : keyLe a w
      · refine ⟨w, a :: l1, l2, ?_, ?_, ?_, hafter⟩
        · rw [hins, getLast?_orderedInsert a _ hsorted w hlast, if_pos haw]
        · rw [hdec]; rfl
        · intro z hz
          rcases List.mem_cons.mp hz with rfl | hz
          · exact haw
          · exact hall z hz
      · refine ⟨a, [], b :: t2, ?_, rfl, ?_, ?_⟩
        · rw [hins, getLast?_orderedInsert a _ hsorted w hlast, if_neg haw]
        · intro z hz
          rcases List.mem_cons.mp hz with rfl | hz
          · exact keyLe_refl _
          · rcases keyLe_total a w with h | h
            · exact absurd h haw
            · exact keyLe_trans (hall z hz) h
        · intro z hz hc
          exact haw (keyLe_trans hc (hall z hz))

def tieA : ZipItem := ⟨"2024", "https://ex.com/a.zip", some ⟨2024, 3, 1⟩, "A", ""⟩

def tieB : ZipItem := ⟨"2024", "https://ex.com/b.zip", some ⟨2024, 3, 1⟩, "B", ""⟩

def undatedA : ZipItem := ⟨"2024", "https://ex.com/u1.zip", none, "U1", ""⟩

def undatedB : ZipItem := ⟨"2024", "https://ex.com/u2.zip", none, "U2", ""⟩

/-- C3 (corrected, counterexample): on two candidates with the same as-of
date, the selector returns the second (last-encountered), not the
first-encountered as claimed: `dated.sort(...)` is stable ascending and
`dated[-1]` is taken, so ties go to the last-encountered entry. -/
theorem c3_tie_counterexample :
    tieA.asof = tieB.asof ∧ tieA ≠ tieB ∧
    choose_latest_for_year [tieA, tieB] = some tieB ∧
    choose_latest_for_year [tieA, tieB] ≠ some tieA := by
  refine ⟨rfl, by decide, by decide, by decide⟩

/-- C3 (amended): on the empty list the selector returns `none`; if at least
one input is dated it returns a dated entry of maximal date that is the
last-encountered among the dated entries achieving that maximum (every later
dated entry is strictly earlier-dated); if no input is dated it returns the
first entry; and it is deterministic, being a pure function of the list. -/
theorem c3_selector_latest_last :
    choose_latest_for_year [] = none ∧
    (∀ l : List ZipItem, l.filter (fun z => z.asof.isSome) ≠ [] →
      ∃ w l1 l2, choose_latest_for_year l = some w ∧
        l.filter (fun z => z.asof.isSome) = l1 ++ w :: l2 ∧
        (∀ z ∈ l.filter (fun z => z.asof.isSome), keyLe z w) ∧
        (∀ z ∈ l2, ¬ keyLe w z)) ∧
    (∀ l : List ZipItem, l ≠ [] → l.filter (fun z => z.asof.isSome) = [] →
      choose_latest_for_year l = l.head?) := by
  refine ⟨rfl, ?_, ?_⟩
  · intro l hne
    obtain ⟨w, l1, l2, hlast, hdec, hall, hafter⟩ :=
      insertionSort_getLast_max (l.filter (fun z => z.asof.isSome)) hne
    refine ⟨w, l1, l2, ?_, hdec, hall, hafter⟩
    unfold choose_latest_for_year
    rcases l with _ | ⟨x, xs⟩
    · exact absurd rfl hne
    · rw [if_neg (by simp)]
      rcases hfl : (x :: xs).filter (fun z => z.asof.isSome) with _ | ⟨y, ys⟩
      · rw [hfl] at hne; exact absurd rfl hne
      · rw [hfl] at hlast
        rw [hfl]
        rw [if_pos (by simp)]
        exact hlast
  · intro l hlne hfil
    unfold choose_latest_for_year
    rcases l with _ | ⟨x, xs⟩
    · exact absurd rfl hlne
    · rw [if_neg (by simp), hfil]
      rw [if_neg (by simp)]
      split
      · rfl
      · rfl

/-- C3 witness: the tie pair instantiates the dated branch and the undated
pair the first-encountered fallback. -/
theorem c3_selector_latest_last_witness :
    (∃ w l1 l2, choose_latest_for_year [tieA, tieB] = some w ∧
      [tieA, tieB].filter (fun z => z.asof.isSome) = l1 ++ w :: l2 ∧
      (∀ z ∈ [tieA, tieB].filter (fun z => z.asof.isSome), keyLe z w) ∧
      (∀ z ∈ l2, ¬ keyLe w z)) ∧
    choose_latest_for_year [undatedA, undatedB] = [undatedA, undatedB].head? :=
  ⟨c3_selector_latest_last.2.1 [tieA, tieB] (by decide),
   c3_selector_latest_last.2.2 [undatedA, undatedB] (by decide) (by decide)⟩

end CxDataMart
